import Mathlib

/-!
Verification of the OCIP-Web-Scraper harvesting/checkpoint engine
(`src/Main.py`).  The Python phase scripts are shallowly embedded here:
pure text utilities become Lean functions on `List Char`, the Selenium
page driver becomes an abstract `Driver` record of state-transition
functions, and each control loop (pagination, enrichment, re-visit)
becomes an explicit recursive function over that abstraction.
-/

set_option maxHeartbeats 1000000
set_option maxRecDepth 4000

namespace OCIP

/-- Python's notion of whitespace (what `str.strip()` strips and `\s`
matches in a `re` pattern over `str`): ASCII control whitespace,
the space, NEL, NBSP, and the Unicode space separators. -/
def pyIsSpace (c : Char) : Bool :=
  let n := c.toNat
  (9 ≤ n && n ≤ 13) || (28 ≤ n && n ≤ 31) || n == 32 || n == 133 ||
  n == 160 || n == 5760 || (8192 ≤ n && n ≤ 8202) || n == 8232 ||
  n == 8233 || n == 8239 || n == 8287 || n == 12288

/-- ASCII decimal digit, the characters matched by `\d` in the pager regex. -/
def pyIsDigit (c : Char) : Bool := 48 ≤ c.toNat && c.toNat ≤ 57

/-- Left part of Python `str.strip()`. -/
def lstrip (l : List Char) : List Char := l.dropWhile pyIsSpace

/-- Right part of Python `str.strip()`. -/
def rstrip (l : List Char) : List Char := (l.reverse.dropWhile pyIsSpace).reverse

/-- Python `str.strip()` with no arguments. -/
def pyStrip (l : List Char) : List Char := rstrip (lstrip l)

/-- `re.sub(r'\s+', ' ', s)`: every maximal run of whitespace becomes a
single blank.  The run is consumed pairwise; the single blank is emitted
at the last character of the run. -/
def collapseWS : List Char → List Char
  | [] => []
  | [c] => if pyIsSpace c then [' '] else [c]
  | c1 :: c2 :: rest =>
    if pyIsSpace c1 && pyIsSpace c2 then collapseWS (c2 :: rest)
    else (if pyIsSpace c1 then ' ' else c1) :: collapseWS (c2 :: rest)

/-- The non-breaking space `'\xa0'` that `clean_text` replaces. -/
def nbsp : Char := Char.ofNat 160

/-- `clean_text` from `src/Main.py` (Phases 2, 4 and 6, identical bodies):
empty (falsy) input maps to the empty string; otherwise the text is
stripped, whitespace runs are collapsed by `re.sub(r'\s+', ' ', ...)`,
and any remaining `'\xa0'` is replaced by a blank. -/
def clean_text (l : List Char) : List Char :=
  if l = [] then []
  else (collapseWS (pyStrip l)).map (fun c => if c = nbsp then ' ' else c)

/-- Python `enumerate(xs, start)`. -/
def pyEnumerate (start : Nat) : List α → List (Nat × α)
  | [] => []
  | x :: xs => (start, x) :: pyEnumerate (start + 1) xs

/-- The resume loop header shared by Phase 1 (`main`, line 1531) and
Phase 2 (`main`, line 2363): `enumerate(names[start_index:], start=start_index)`. -/
def resumeSeq (k : Nat) (l : List α) : List (Nat × α) := pyEnumerate k (l.drop k)

/-- Numeric value of a digit run, as `int()` reads it. -/
def digitsVal (ds : List Char) : Nat := ds.foldl (fun a c => 10 * a + (c.toNat - 48)) 0

/-- Consume one expected character. -/
def expectChar (c : Char) : List Char → Option (List Char)
  | x :: rest => if x = c then some rest else none
  | [] => none

/-- Consume `\s+` (at least one whitespace character, greedily). -/
def skipWS1 : List Char → Option (List Char)
  | c :: rest => if pyIsSpace c then some (lstrip rest) else none
  | [] => none

/-- `re.match(r'(\d+)\s*-\s*(\d+)\s+of\s+(\d+)\s+items?', text)` from
`parse_pagination_info`.  All the character classes at the pattern's
choice points are disjoint, so the greedy left-to-right read below is
exactly the regex match; `re.match` anchors at the start only, so any
trailing text is ignored. -/
def pagerMatch (l : List Char) : Option (Nat × Nat × Nat) :=
  let d1 := l.takeWhile pyIsDigit
  let r1 := l.dropWhile pyIsDigit
  if d1 = [] then none else
  match expectChar '-' (lstrip r1) with
  | none => none
  | some r2 =>
    let r3 := lstrip r2
    let d2 := r3.takeWhile pyIsDigit
    let r4 := r3.dropWhile pyIsDigit
    if d2 = [] then none else
    match skipWS1 r4 with
    | none => none
    | some r5 =>
      match expectChar 'o' r5 with
      | none => none
      | some r6 =>
        match expectChar 'f' r6 with
        | none => none
        | some r7 =>
          match skipWS1 r7 with
          | none => none
          | some r8 =>
            let d3 := r8.takeWhile pyIsDigit
            let r9 := r8.dropWhile pyIsDigit
            if d3 = [] then none else
            match skipWS1 r9 with
            | none => none
            | some r10 =>
              match expectChar 'i' r10 with
              | none => none
              | some r11 =>
                match expectChar 't' r11 with
                | none => none
                | some r12 =>
                  match expectChar 'e' r12 with
                  | none => none
                  | some r13 =>
                    match expectChar 'm' r13 with
                    | none => none
                    | some _ => some (digitsVal d1, digitsVal d2, digitsVal d3)

/-- `parse_pagination_info` (`src/Main.py` lines 1082-1113): the pager
label is matched against the regex above; on success the three captured
numbers are returned, and every failure path (no match, "no items"
fallback, missing element, any exception) returns `(0, 0, 0)`. -/
def parse_pagination_info (s : String) : Nat × Nat × Nat :=
  match pagerMatch s.data with
  | some t => t
  | none => (0, 0, 0)

/-- The Selenium boundary, abstracted.  `S` is the opaque remote-grid
state, `R` the record type one page scrape yields.  The fields model,
in order: `parse_pagination_info` (the reported `(start, end, total)`
window), `has_next_page`, a successful `click_next_page` (`none` means
the click reported failure and the loop must break), the
first-page click inside `reset_to_first_page` (`none` means
timeout/failure), and the row extraction of the current page. -/
structure Driver (S R : Type) where
  window : S → Nat × Nat × Nat
  hasNextBtn : S → Bool
  clickNext : S → Option S
  clickFirst : S → Option S
  scrape : S → List R

/-- Result of a per-scope pagination run: accumulated records, the final
grid state, the final value of the `current_page` counter, and the
number of pages actually scraped. -/
structure ScrapeResult (S R : Type) where
  records : List R
  state : S
  page : Nat
  scraped : Nat

/-- `reset_to_first_page` (`src/Main.py` lines 1163-1205): if the
reported window start is already `<= 1` the grid is untouched;
otherwise the first-page button is clicked, and a click failure
leaves the grid where it was and reports `false`. -/
def reset_to_first_page (D : Driver S R) (s : S) : S × Bool :=
  if (D.window s).1 ≤ 1 then (s, true)
  else
    match D.clickFirst s with
    | some s2 => (s2, true)
    | none => (s, false)

/-- The `while True` body of Phase 1's `scrape_all_pages_for_institution`
(lines 1440-1469): scrape the page, stop when `end >= total`, stop when
no next button, stop when the click fails, and after a successful click
increment `current_page` and stop when it exceeds the safety limit 50. -/
def scrapePagesGoP1 (D : Driver S R) (s : S) (acc : List R) (page scraped : Nat) :
    ScrapeResult S R :=
  let acc2 := acc ++ D.scrape s
  let scr2 := scraped + 1
  let w := D.window s
  if w.2.2 ≤ w.2.1 then ⟨acc2, s, page, scr2⟩
  else if ¬ D.hasNextBtn s then ⟨acc2, s, page, scr2⟩
  else
    match D.clickNext s with
    | none => ⟨acc2, s, page, scr2⟩
    | some s2 =>
      if page + 1 > 50 then ⟨acc2, s2, page + 1, scr2⟩
      else scrapePagesGoP1 D s2 acc2 (page + 1) scr2
termination_by 51 - page
decreasing_by omega

/-- Phase 1 `scrape_all_pages_for_institution` (lines 1421-1476): an
initial window with `total == 0` returns immediately; otherwise the
pagination loop runs from page 1 and, when more than one page was
visited, the grid is reset to its first page before returning. -/
def scrape_all_pages_p1 (D : Driver S R) (s0 : S) : ScrapeResult S R :=
  let w0 := D.window s0
  if w0.2.2 = 0 then ⟨[], s0, 1, 0⟩
  else
    let r := scrapePagesGoP1 D s0 [] 1 0
    if 1 < r.page then
      ⟨r.records, (reset_to_first_page D r.state).1, r.page, r.scraped⟩
    else r

/-- The `while True` body of Phase 3 v2.0's
`scrape_all_pages_for_institution` (lines 3368-3399): scrape the rows,
stop when there is no next button or the nonzero total is exhausted,
stop when the click fails, stop (without advancing `current_page`) when
the freshly loaded page has no stable rows, and otherwise increment
`current_page`, stopping when it exceeds the safety limit 200. -/
def scrapePagesGoP3 (D : Driver S R) (s : S) (acc : List R) (page scraped : Nat) :
    ScrapeResult S R :=
  let acc2 := acc ++ D.scrape s
  let scr2 := scraped + 1
  let w := D.window s
  if ¬ D.hasNextBtn s ∨ (0 < w.2.2 ∧ w.2.2 ≤ w.2.1) then ⟨acc2, s, page, scr2⟩
  else
    match D.clickNext s with
    | none => ⟨acc2, s, page, scr2⟩
    | some s2 =>
      if (D.scrape s2).isEmpty then ⟨acc2, s2, page, scr2⟩
      else if page + 1 > 200 then ⟨acc2, s2, page + 1, scr2⟩
      else scrapePagesGoP3 D s2 acc2 (page + 1) scr2
termination_by 201 - page
decreasing_by omega

/-- Phase 3 v2.0 `scrape_all_pages_for_institution` (lines 3327-3407).
Under a deterministic driver the first-page retry ladder collapses: if
the stable row read is empty the function returns `[]` without a reset,
exactly as every early-return path of the source does; otherwise the
loop runs and a multi-page visit is followed by a first-page reset. -/
def scrape_all_pages_p3 (D : Driver S R) (s0 : S) : ScrapeResult S R :=
  if (D.scrape s0).isEmpty then ⟨[], s0, 1, 0⟩
  else
    let r := scrapePagesGoP3 D s0 [] 1 0
    if 1 < r.page then
      ⟨r.records, (reset_to_first_page D r.state).1, r.page, r.scraped⟩
    else r

/-- The per-page record merge of Phase 5 (lines 5183-5189): each scraped
row is appended only if its `Manage_URL` key is not already present. -/
def addNewRecords (key : R → String) (master page : List R) : List R :=
  page.foldl (fun m it => if m.any (fun x => key x == key it) then m else m ++ [it]) master

/-- The `while True` body of Phase 5's `main` (lines 5179-5225): scrape
and merge the page, stop when `end >= total`, stop when no next button,
stop when the click fails, and after a successful click increment
`current_page`, stopping when it exceeds the safety limit 500. -/
def scrapePagesGoP5 (D : Driver S R) (key : R → String) (s : S) (master : List R)
    (page scraped : Nat) : ScrapeResult S R :=
  let m2 := addNewRecords key master (D.scrape s)
  let scr2 := scraped + 1
  let w := D.window s
  if w.2.2 ≤ w.2.1 then ⟨m2, s, page, scr2⟩
  else if ¬ D.hasNextBtn s then ⟨m2, s, page, scr2⟩
  else
    match D.clickNext s with
    | none => ⟨m2, s, page, scr2⟩
    | some s2 =>
      if page + 1 > 500 then ⟨m2, s2, page + 1, scr2⟩
      else scrapePagesGoP5 D key s2 m2 (page + 1) scr2
termination_by 501 - page
decreasing_by omega

/-- Phase 5's pagination loop entry: `current_page = 1`, master list
carried in from the checkpoint. -/
def phase5_pagination (D : Driver S R) (key : R → String) (s0 : S) (master0 : List R) :
    ScrapeResult S R :=
  scrapePagesGoP5 D key s0 master0 1 0

/-- An ideal Kendo grid with page size 100 and `total` rows, exposing the
interface the scraper drives: state is the 1-based current page number,
the window is `((p-1)*100+1, min (p*100) total, total)`, the next button
is enabled while rows remain, and both navigation clicks succeed. -/
def kendoGrid (total : Nat) : Driver Nat Nat where
  window := fun p => ((p - 1) * 100 + 1, min (p * 100) total, total)
  hasNextBtn := fun p => decide (p * 100 < total)
  clickNext := fun p => some (p + 1)
  clickFirst := fun _ => some 1
  scrape := fun p => [p]

/-- A remote grid for the spec's 163-item example whose next-page
affordance always reports as available: page 1 shows `(1, 100, 163)`,
every later read shows `(101, 163, 163)`, and clicks always succeed. -/
def pager163 : Driver Nat Nat where
  window := fun n => if n ≤ 1 then (1, 100, 163) else (101, 163, 163)
  hasNextBtn := fun _ => true
  clickNext := fun n => some (n + 1)
  clickFirst := fun _ => some 1
  scrape := fun n => [n]

/-- A maximally adversarial remote: the window never closes
(`end = 1 < 2 = total`), the next button is always offered, and every
click succeeds, so only the loop's own ceiling can stop it. -/
def advDriver : Driver Unit Nat where
  window := fun _ => (1, 1, 2)
  hasNextBtn := fun _ => true
  clickNext := fun _ => some ()
  clickFirst := fun _ => some ()
  scrape := fun _ => [0]

/-- Python's substring operator `needle in hay` on strings. -/
def pyIn (needle hay : List Char) : Bool :=
  (List.range (hay.length + 1)).any fun i => needle.isPrefixOf (hay.drop i)

/-- The option-matching loop of Phase 1's `select_institution`
(lines 1300-1309): the first option whose stripped text contains the
target or is contained in it is chosen; one single pass, no separate
exact-match pass. -/
def find_match_p1 (target : List Char) : List (List Char) → Option (List Char)
  | [] => none
  | o :: rest =>
    if pyIn target (pyStrip o) || pyIn (pyStrip o) target then some o
    else find_match_p1 target rest

/-- Phase 1 `select_institution` outcome: `true` iff some option matched;
on no match the dropdown is closed and `False` is returned, no exception. -/
def select_institution_p1 (target : List Char) (opts : List (List Char)) : Bool :=
  (find_match_p1 target opts).isSome

/-- The option-matching loop of Phase 3 v2.0's `select_institution`
(lines 3235-3243): the first option whose raw text contains the target
is chosen; the containment is tested in one direction only. -/
def find_match_p3 (target : List Char) : List (List Char) → Option (List Char)
  | [] => none
  | o :: rest => if pyIn target o then some o else find_match_p3 target rest

/-- Phase 3 v2.0 `select_institution` outcome. -/
def select_institution_p3 (target : List Char) (opts : List (List Char)) : Bool :=
  (find_match_p3 target opts).isSome

/-- The selection algorithm the spec describes (§4.1): an exact match is
attempted first over all options, and only then a substring match in
both directions.  Stated from the spec's words, for comparison with the
two implementations above. -/
def find_match_spec (target : List Char) (opts : List (List Char)) : Option (List Char) :=
  match opts.find? (fun o => o == target) with
  | some o => some o
  | none => opts.find? fun o => pyIn target o || pyIn o target

/-- The Phase 1 checkpoint document written by `save_checkpoint`
(lines 1208-1218): of the institution list only its *length* is stored. -/
structure CheckpointP1 (α : Type) where
  timestamp : String
  current_index : Nat
  total_institutions : Nat
  experts_collected : Nat
  data : List α
deriving DecidableEq

/-- Phase 1 `save_checkpoint(data, current_index, institution_names)`. -/
def save_checkpoint_p1 (ts : String) (data : List α) (idx : Nat)
    (names : List String) : CheckpointP1 α :=
  ⟨ts, idx, names.length, data.length, data⟩

/-- One entry of Phase 3 v2.0's `empty_institutions` list. -/
structure EmptyEntry where
  index : Nat
  name : String
  reason : String
deriving DecidableEq

/-- The Phase 3 v2.0 checkpoint document written by `save_checkpoint`
(lines 3165-3176): it persists the enumerated `institution_names` list
itself alongside the index. -/
structure CheckpointP3 (α : Type) where
  timestamp : String
  current_index : Nat
  total_institutions : Nat
  facilities_collected : Nat
  institution_names : List String
  empty_institutions : List EmptyEntry
  data : List α
deriving DecidableEq

/-- Phase 3 v2.0 `save_checkpoint(data, current_index, institution_names,
empty_institutions)`. -/
def save_checkpoint_p3 (ts : String) (data : List α) (idx : Nat)
    (names : List String) (empties : List EmptyEntry) : CheckpointP3 α :=
  ⟨ts, idx, names.length, data.length, names, empties, data⟩

/-- The institution list a resumed Phase 3 v2.0 run iterates (lines
3591-3598 and 3622-3623): the persisted list from the checkpoint, with a
fresh enumeration performed only if the persisted list is empty. -/
def p3_resume_names (ck : CheckpointP3 α) (freshEnumeration : List String) : List String :=
  if ck.institution_names.isEmpty then freshEnumeration else ck.institution_names

/-- A facility row record as built by Phase 3 v2.0's `scrape_rows`
(lines 3308-3315). -/
structure FacRecord where
  Institution : String
  Branch : String
  Facility_Name : String
  Facility_Type : String
  Manage_URL : String
  Scraped_At : String
deriving DecidableEq

/-- The cell texts and link of one grid row. -/
structure RowCells where
  branch : String
  facility : String
  ftype : String
  url : String
deriving DecidableEq

/-- Phase 3 v2.0 `scrape_rows(rows, institution_name)`: every produced
record carries the selected institution's name in its `Institution`
field. -/
def scrape_rows (rows : List RowCells) (institution_name now : String) : List FacRecord :=
  rows.map fun r => ⟨institution_name, r.branch, r.facility, r.ftype, r.url, now⟩

/-- `scrape_institution` (lines 3412-3421): `none` models the selection
failure (`None` in the source), otherwise all pages are scraped; for the
re-visit claim only the produced record list matters. -/
def scrape_institution_m (selOk : Bool) (rows : List RowCells) (name now : String) :
    Option (List FacRecord) :=
  if selOk then some (scrape_rows rows name now) else none

/-- The per-target body of `_revisit_targets` (lines 3517-3541): records
previously attributed to the institution are filtered out of the master
list first, and the freshly scraped records (if selection succeeded and
any were found) are appended. -/
def revisit_one (master : List FacRecord) (name : String)
    (fetched : Option (List FacRecord)) : List FacRecord :=
  let m := master.filter fun r => r.Institution != name
  match fetched with
  | none => m
  | some data => if data.isEmpty then m else m ++ data

/-- What the Phase 2/6 enrichment loop finds for one item: the item has
no usable detail URL, or extraction fails, or it yields a profile. -/
inductive ItemOutcome (α : Type) where
  | noUrl : ItemOutcome α
  | failed : ItemOutcome α
  | ok : α → ItemOutcome α
deriving DecidableEq

/-- One entry of the enrichment error registry. -/
structure PErr where
  index : Nat
  reason : String
deriving DecidableEq

/-- Observable rate-limiting events of the enrichment loop. -/
inductive Ev where
  | item : Nat → Ev
  | pause : Ev
deriving DecidableEq

/-- The enrichment loop body shared by Phase 2 (lines 2363-2412) and
Phase 6 (lines 6268-6326), processing the items from index `i` on:
an item without a valid URL is recorded as an error and `continue`s —
skipping the batch-pause check; otherwise the item yields a profile or
an extraction-failure error, and then a pause fires exactly when
`(i + 1) % BATCH_SIZE == 0 and i + 1 < total`.  Returns the profiles,
the errors, and the event trace, each in loop order. -/
def enrichGo (B total : Nat) : List (ItemOutcome α) → Nat → List α × List PErr × List Ev
  | [], _ => ([], [], [])
  | o :: rest, i =>
    let tail := enrichGo B total rest (i + 1)
    let pauseEvs : List Ev := if (i + 1) % B = 0 ∧ i + 1 < total then [Ev.pause] else []
    match o with
    | .noUrl =>
      (tail.1, ⟨i, "No valid Manage URL"⟩ :: tail.2.1, Ev.item i :: tail.2.2)
    | .failed =>
      (tail.1, ⟨i, "Extraction failed"⟩ :: tail.2.1, Ev.item i :: pauseEvs ++ tail.2.2)
    | .ok p =>
      (p :: tail.1, tail.2.1, Ev.item i :: pauseEvs ++ tail.2.2)

/-- A full enrichment run: the loop walks `items[start:]` with 1-based
display indices starting at `start`, on top of the data and error
registry carried in from the checkpoint (`total = len(master_list)`). -/
def enrichRun (B : Nat) (items : List (ItemOutcome α)) (start : Nat)
    (data0 : List α) (errs0 : List PErr) : List α × List PErr × List Ev :=
  let r := enrichGo B items.length (items.drop start) start
  (data0 ++ r.1, errs0 ++ r.2.1, r.2.2)

/-- Phase 2's end-of-run checkpoint cleanup condition (lines 2451-2454):
the file is removed when the error registry is empty — the processed
count is not consulted. -/
def phase2_deletes_checkpoint (finalErrs : List PErr) : Bool :=
  finalErrs.isEmpty

/-- Phase 6's end-of-run checkpoint cleanup condition (lines 6367-6370):
the file is removed only when the error registry is empty AND the
processed count equals the full input length. -/
def phase6_deletes_checkpoint (finalData : List α) (finalErrs : List PErr)
    (total : Nat) : Bool :=
  finalErrs.isEmpty && finalData.length == total

/-- The 1-based indices of the items immediately followed by a cool-down
pause in an event trace. -/
def pausesAfterItems : List Ev → List Nat
  | Ev.item i :: Ev.pause :: rest => (i + 1) :: pausesAfterItems rest
  | _ :: rest => pausesAfterItems rest
  | [] => []

/-- Whether an item takes the `continue` path for lacking a detail URL. -/
def isNoUrl : ItemOutcome α → Bool
  | .noUrl => true
  | _ => false

/-! ## Supporting lemmas -/

theorem pyEnumerate_map_snd (l : List α) : ∀ s, (pyEnumerate s l).map Prod.snd = l := by
  induction l with
  | nil => intro s; rfl
  | cons x xs ih => intro s; simp [pyEnumerate, ih]

theorem pyEnumerate_mem_fst (l : List α) :
    ∀ s p, p ∈ pyEnumerate s l → s ≤ p.1 := by
  induction l with
  | nil => intro s p h; simp [pyEnumerate] at h
  | cons x xs ih =>
    intro s p h
    simp only [pyEnumerate, List.mem_cons] at h
    rcases h with h | h
    · subst h; exact Nat.le_refl s
    · exact Nat.le_trans (Nat.le_succ s) (ih (s + 1) p h)

theorem resumeSeq_head (l : List α) (k : Nat) :
    (resumeSeq k l).head? = (l[k]?).map fun x => (k, x) := by
  rcases h : l[k]? with _ | x
  · have : l.length ≤ k := by
      by_contra hlt
      push_neg at hlt
      simp [List.getElem?_eq_getElem hlt] at h
    simp [resumeSeq, List.drop_eq_nil_of_le this, pyEnumerate]
  · have hlt : k < l.length := by
      by_contra hge
      push_neg at hge
      simp [List.getElem?_eq_none hge] at h
    have := List.drop_eq_getElem_cons hlt
    rw [resumeSeq, this, pyEnumerate]
    simp [List.getElem?_eq_getElem hlt] at h
    simp [h]

theorem goP1_bound (D : Driver S R) (s : S) (acc : List R) (page scraped : Nat) :
    page ≤ 50 → (scrapePagesGoP1 D s acc page scraped).scraped ≤ scraped + (51 - page) := by
  induction s, acc, page, scraped using scrapePagesGoP1.induct D with
  | case1 s acc page scraped w h =>
    intro hp; rw [scrapePagesGoP1]; simp [h]; omega
  | case2 s acc page scraped w h1 h2 =>
    intro hp; rw [scrapePagesGoP1]; simp [h1, h2]; omega
  | case3 s acc page scraped w h1 h2 hc =>
    intro hp; rw [scrapePagesGoP1]; simp [h1, h2, hc]; omega
  | case4 s acc page scraped w h1 h2 s2 hc hlim =>
    intro hp; rw [scrapePagesGoP1]; simp [h1, h2, hc, hlim]; omega
  | case5 s acc page scraped acc2 scr2 w h1 h2 s2 hc hlim ih =>
    intro hp
    rw [scrapePagesGoP1]
    have hih : (scrapePagesGoP1 D s2 (acc ++ D.scrape s) (page + 1) (scraped + 1)).scraped
        ≤ (scraped + 1) + (51 - (page + 1)) := ih (by omega)
    simp [h1, h2, hc, hlim]
    omega

theorem goP3_bound (D : Driver S R) (s : S) (acc : List R) (page scraped : Nat) :
    page ≤ 200 → (scrapePagesGoP3 D s acc page scraped).scraped ≤ scraped + (201 - page) := by
  induction s, acc, page, scraped using scrapePagesGoP3.induct D with
  | case1 s acc page scraped w h =>
    intro hp; rw [scrapePagesGoP3, if_pos h]; simp; omega
  | case2 s acc page scraped w h1 hc =>
    intro hp; rw [scrapePagesGoP3, if_neg h1]; simp [hc]; omega
  | case3 s acc page scraped w h1 s2 hc hrows =>
    intro hp; rw [scrapePagesGoP3, if_neg h1]; simp [hc, hrows]; omega
  | case4 s acc page scraped w h1 s2 hc hrows hlim =>
    intro hp; rw [scrapePagesGoP3, if_neg h1]; simp [hc, hrows, hlim]; omega
  | case5 s acc page scraped acc2 scr2 w h1 s2 hc hrows hlim ih =>
    intro hp
    rw [scrapePagesGoP3, if_neg h1]
    have hih : (scrapePagesGoP3 D s2 (acc ++ D.scrape s) (page + 1) (scraped + 1)).scraped
        ≤ (scraped + 1) + (201 - (page + 1)) := ih (by omega)
    simp [hc, hrows, hlim]
    omega

theorem goP5_bound (D : Driver S R) (key : R → String) (s : S) (master : List R)
    (page scraped : Nat) :
    page ≤ 500 → (scrapePagesGoP5 D key s master page scraped).scraped ≤ scraped + (501 - page) := by
  induction s, master, page, scraped using scrapePagesGoP5.induct D key with
  | case1 s master page scraped w h =>
    intro hp; rw [scrapePagesGoP5]; simp [h]; omega
  | case2 s master page scraped w h1 h2 =>
    intro hp; rw [scrapePagesGoP5]; simp [h1, h2]; omega
  | case3 s master page scraped w h1 h2 hc =>
    intro hp; rw [scrapePagesGoP5]; simp [h1, h2, hc]; omega
  | case4 s master page scraped w h1 h2 s2 hc hlim =>
    intro hp; rw [scrapePagesGoP5]; simp [h1, h2, hc, hlim]; omega
  | case5 s master page scraped m2 scr2 w h1 h2 s2 hc hlim ih =>
    intro hp
    rw [scrapePagesGoP5]
    have hih : (scrapePagesGoP5 D key s2 (addNewRecords key master (D.scrape s)) (page + 1)
        (scraped + 1)).scraped ≤ (scraped + 1) + (501 - (page + 1)) := ih (by omega)
    simp [h1, h2, hc, hlim]
    omega

/-- After `reset_to_first_page`, an ideal Kendo grid always reports a
window starting at 1: either it already did, or the first-page click
lands it on page 1. -/
theorem kendo_reset_start (total s : Nat) :
    ((kendoGrid total).window (reset_to_first_page (kendoGrid total) s).1).1 = 1 := by
  by_cases h : ((kendoGrid total).window s).1 ≤ 1
  · simp [reset_to_first_page, h]
    simp [kendoGrid] at h ⊢
    omega
  · have hs : ¬(s - 1 = 0) := by
      simp [kendoGrid] at h
      omega
    simp [reset_to_first_page, h, kendoGrid, hs]

theorem pyIn_refl (t : List Char) : pyIn t t = true := by
  simp only [pyIn, List.any_eq_true]
  refine ⟨0, by simp, ?_⟩
  simp [List.isPrefixOf_iff_prefix]

theorem find_match_p1_isSome (target : List Char) (opts : List (List Char)) :
    (find_match_p1 target opts).isSome = true ↔
      ∃ o ∈ opts, (pyIn target (pyStrip o) || pyIn (pyStrip o) target) = true := by
  induction opts with
  | nil => simp [find_match_p1]
  | cons o rest ih =>
    rw [find_match_p1]
    by_cases h : (pyIn target (pyStrip o) || pyIn (pyStrip o) target) = true
    · simp only [h, if_true, Option.isSome_some, true_iff]
      exact ⟨o, List.mem_cons_self o rest, h⟩
    · rw [if_neg h, ih]
      constructor
      · rintro ⟨a, ha, hp⟩
        exact ⟨a, List.mem_cons_of_mem o ha, hp⟩
      · rintro ⟨a, ha, hp⟩
        rcases List.mem_cons.mp ha with rfl | ha2
        · exact absurd hp h
        · exact ⟨a, ha2, hp⟩

theorem find_match_p3_isSome (target : List Char) (opts : List (List Char)) :
    (find_match_p3 target opts).isSome = true ↔ ∃ o ∈ opts, pyIn target o = true := by
  induction opts with
  | nil => simp [find_match_p3]
  | cons o rest ih =>
    rw [find_match_p3]
    by_cases h : pyIn target o = true
    · simp only [h, if_true, Option.isSome_some, true_iff]
      exact ⟨o, List.mem_cons_self o rest, h⟩
    · rw [if_neg h, ih]
      constructor
      · rintro ⟨a, ha, hp⟩
        exact ⟨a, List.mem_cons_of_mem o ha, hp⟩
      · rintro ⟨a, ha, hp⟩
        rcases List.mem_cons.mp ha with rfl | ha2
        · exact absurd hp h
        · exact ⟨a, ha2, hp⟩

/-- Against `advDriver`, the Phase 5 loop runs until its own page
ceiling: starting at page number `501 - d` it scrapes exactly `d`
further pages. -/
theorem advP5_exact (d : Nat) :
    ∀ page scraped master, page + d = 501 → 1 ≤ d →
      (scrapePagesGoP5 advDriver (fun _ => "") () master page scraped).scraped = scraped + d := by
  induction d with
  | zero => intro page scraped master hpd h1; omega
  | succ d ih =>
    intro page scraped master hpd _
    rw [scrapePagesGoP5]
    by_cases hl : page + 1 > 500
    · simp [advDriver, hl]; omega
    · have hrec := ih (page + 1) (scraped + 1)
        (addNewRecords (fun _ => "") master (advDriver.scrape ())) (by omega) (by omega)
      simp only [advDriver] at hrec
      simp [advDriver, hl]
      omega

/-! ## Claim theorems -/

/-- C1: resuming from a checkpoint whose `current_index` is `k` starts
the processing loop exactly at 0-based index `k` of the master list:
the first processed pair is `(k, l[k])`, the processed items are
precisely `l[k:]`, every processed index is at least `k` (so items
`0..k-1` are not re-processed), and a checkpoint with
`processedIndex = 37` resumes at the 38th item. -/
theorem C1_resume_starts_at_processed_index (l : List α) (k : Nat) :
    (resumeSeq k l).head? = (l[k]?).map (fun x => (k, x)) ∧
    (resumeSeq k l).map Prod.snd = l.drop k ∧
    (∀ p ∈ resumeSeq k l, k ≤ p.1) ∧
    (resumeSeq 37 (List.range 40)).head? = some (37, 37) := by
  refine ⟨resumeSeq_head l k, pyEnumerate_map_snd _ k, ?_, by decide⟩
  intro p hp
  exact pyEnumerate_mem_fst _ k p hp

/-- C3: the pager text `"1 - 100 of 163 items"` parses to the window
`(1, 100, 163)`, the follow-up text parses to `(101, 163, 163)`, and on
a remote grid showing exactly those two windows the Phase 1 pagination
loop stops after the second page because `end >= total` — even though
the driver keeps offering a next-page affordance (`hasNextBtn` is
always `true` and every next click would succeed). -/
theorem C3_pagination_window_parse_and_stop :
    parse_pagination_info "1 - 100 of 163 items" = (1, 100, 163) ∧
    parse_pagination_info "101 - 163 of 163 items" = (101, 163, 163) ∧
    (scrape_all_pages_p1 pager163 1).scraped = 2 ∧
    (∀ n, pager163.hasNextBtn n = true) ∧
    (∀ n, (pager163.clickNext n).isSome = true) := by
  refine ⟨by decide, by decide, ?_, fun n => rfl, fun n => rfl⟩
  simp [scrape_all_pages_p1, scrapePagesGoP1, pager163, reset_to_first_page]

/-- C4 counterexample: the page-count ceiling is not 200 everywhere —
against a remote that never closes its window, always offers a next
page, and accepts every click, the Phase 5 pagination loop scrapes
exactly 500 pages, exceeding the claimed ceiling of 200. -/
theorem C4_counterexample_phase5_visits_500_pages :
    (phase5_pagination advDriver (fun _ => "") () []).scraped = 500 ∧ 200 < 500 := by
  refine ⟨?_, by omega⟩
  have h := advP5_exact 500 1 0 [] (by omega) (by omega)
  simpa [phase5_pagination] using h

/-- C4 (amended): for every behaviour of the remote source each
per-scope pagination loop terminates, visiting at most its own hard
page ceiling — 50 pages in Phase 1, 200 in Phase 3 v2.0 and 500 in
Phase 5 — regardless of the window and next-button signals. -/
theorem C4_amended_hard_page_ceilings (D : Driver S R) (s0 : S) (key : R → String)
    (master0 : List R) :
    (scrape_all_pages_p1 D s0).scraped ≤ 50 ∧
    (scrape_all_pages_p3 D s0).scraped ≤ 200 ∧
    (phase5_pagination D key s0 master0).scraped ≤ 500 := by
  refine ⟨?_, ?_, ?_⟩
  · by_cases h0 : (D.window s0).2.2 = 0
    · simp [scrape_all_pages_p1, h0]
    · have hb := goP1_bound D s0 [] 1 0 (by omega)
      by_cases h1 : 1 < (scrapePagesGoP1 D s0 [] 1 0).page
      · simp [scrape_all_pages_p1, h0, h1]; omega
      · simp [scrape_all_pages_p1, h0, h1]; omega
  · by_cases h0 : (D.scrape s0).isEmpty
    · simp [scrape_all_pages_p3, h0]
    · have hb := goP3_bound D s0 [] 1 0 (by omega)
      by_cases h1 : 1 < (scrapePagesGoP3 D s0 [] 1 0).page
      · simp [scrape_all_pages_p3, h0, h1]; omega
      · simp [scrape_all_pages_p3, h0, h1]; omega
  · have hb := goP5_bound D key s0 master0 1 0 (by omega)
    simp only [phase5_pagination]
    omega

/-- C5: for every total row count and every starting grid position, if
the Phase 1 pagination controller visited more than one page for a
scope, then the grid it leaves behind reports a window start index of 1
— the state in which `select_institution` is invoked for the next
scope.  The driver here is an ideal Kendo grid whose clicks succeed,
matching the spec's collaborator interface. -/
theorem C5_reset_invariant_after_multipage_scope (total s0 : Nat) :
    1 < (scrape_all_pages_p1 (kendoGrid total) s0).page →
      ((kendoGrid total).window ((scrape_all_pages_p1 (kendoGrid total) s0).state)).1 = 1 := by
  intro h
  by_cases h0 : ((kendoGrid total).window s0).2.2 = 0
  · simp [scrape_all_pages_p1, h0] at h
  · by_cases h1 : 1 < (scrapePagesGoP1 (kendoGrid total) s0 [] 1 0).page
    · simp only [scrape_all_pages_p1, if_neg h0, if_pos h1]
      exact kendo_reset_start total _
    · simp [scrape_all_pages_p1, h0, h1] at h

/-- C5 witness: a grid of 163 rows starting on page 1 makes the Phase 1
controller visit 2 pages, and the final grid state reports start
index 1. -/
theorem C5_reset_invariant_witness :
    1 < (scrape_all_pages_p1 (kendoGrid 163) 1).page ∧
    ((kendoGrid 163).window ((scrape_all_pages_p1 (kendoGrid 163) 1).state)).1 = 1 := by
  have hpage : 1 < (scrape_all_pages_p1 (kendoGrid 163) 1).page := by
    simp [scrape_all_pages_p1, scrapePagesGoP1, kendoGrid, reset_to_first_page]
  exact ⟨hpage, C5_reset_invariant_after_multipage_scope 163 1 hpage⟩

/-- C2 counterexample: the Phase 1 checkpoint does not persist the
enumerated scope list — two runs over different institution lists of
equal length write byte-for-byte identical checkpoints, so the list
cannot be recovered from the checkpoint and a resumed run must
re-enumerate. -/
theorem C2_counterexample_p1_checkpoint_forgets_scopes :
    save_checkpoint_p1 "t" ([] : List Nat) 1 ["A", "B"] =
      save_checkpoint_p1 "t" ([] : List Nat) 1 ["C", "D"] ∧
    (["A", "B"] : List String) ≠ ["C", "D"] := ⟨rfl, by decide⟩

/-- C2 (amended): only the Phase 3 v2.0 checkpoint persists the
enumerated institution list, and its resume path iterates that
persisted list (re-enumerating only when the persisted list is empty);
the Phase 1 checkpoint stores only the list's length, so checkpoints
agree whenever the lengths do. -/
theorem C2_amended_scope_list_persistence (ts : String) (dataA : List α) (idx : Nat)
    (names : List String) (empties : List EmptyEntry) (fresh : List String) :
    (save_checkpoint_p3 ts dataA idx names empties).institution_names = names ∧
    (names ≠ [] → p3_resume_names (save_checkpoint_p3 ts dataA idx names empties) fresh = names) ∧
    (∀ names2, names2.length = names.length →
      save_checkpoint_p1 ts dataA idx names2 = save_checkpoint_p1 ts dataA idx names) := by
  refine ⟨rfl, ?_, ?_⟩
  · intro h
    simp [p3_resume_names, save_checkpoint_p3, h]
  · intro names2 h2
    simp [save_checkpoint_p1, h2]

/-- C2 amended witness at concrete inputs. -/
theorem C2_amended_scope_list_persistence_witness :
    (save_checkpoint_p3 "t" ([] : List Nat) 0 ["X"] []).institution_names = ["X"] ∧
    p3_resume_names (save_checkpoint_p3 "t" ([] : List Nat) 0 ["X"] []) ["fresh"] = ["X"] ∧
    save_checkpoint_p1 "t" ([] : List Nat) 0 ["Y"] = save_checkpoint_p1 "t" ([] : List Nat) 0 ["X"] := by
  have h := C2_amended_scope_list_persistence "t" ([] : List Nat) 0 ["X"] [] ["fresh"]
  exact ⟨h.1, h.2.1 (by decide), h.2.2 ["Y"] (by decide)⟩

/-- C7 counterexample: neither selector attempts an exact match first —
with options `["AB", "A"]` and target `"A"`, Phase 1 picks `"AB"`
although the exact option `"A"` is present (the spec's algorithm picks
`"A"`); and Phase 3 v2.0 tests containment in one direction only, so it
misses an option that is a substring of the target. -/
theorem C7_counterexample_matching_order :
    find_match_p1 "A".data ["AB".data, "A".data] = some "AB".data ∧
    find_match_spec "A".data ["AB".data, "A".data] = some "A".data ∧
    "AB".data ≠ "A".data ∧
    find_match_p3 "Uni of X".data ["Uni".data] = none ∧
    find_match_spec "Uni of X".data ["Uni".data] = some "Uni".data := by
  refine ⟨by decide, by decide, by decide, by decide, by decide⟩

/-- C7 (amended): Phase 1's selector succeeds exactly when some option's
stripped text contains the target or is contained in it (a single pass,
exact equality accepted as a special case but not prioritized); Phase 3
v2.0's succeeds exactly when some option's raw text contains the target
(one direction only); both return false — no exception — when nothing
matches, and both accept an exactly-matching option. -/
theorem C7_amended_substring_selection (target : List Char) (opts : List (List Char)) :
    (select_institution_p1 target opts = true ↔
      ∃ o ∈ opts, (pyIn target (pyStrip o) || pyIn (pyStrip o) target) = true) ∧
    ((∃ o ∈ opts, pyStrip o = target) → select_institution_p1 target opts = true) ∧
    (select_institution_p3 target opts = true ↔ ∃ o ∈ opts, pyIn target o = true) ∧
    (target ∈ opts → select_institution_p3 target opts = true) := by
  refine ⟨find_match_p1_isSome target opts, ?_, find_match_p3_isSome target opts, ?_⟩
  · rintro ⟨o, ho, hstrip⟩
    rw [select_institution_p1, find_match_p1_isSome]
    exact ⟨o, ho, by simp [hstrip, pyIn_refl]⟩
  · intro hmem
    rw [select_institution_p3, find_match_p3_isSome]
    exact ⟨target, hmem, pyIn_refl target⟩

/-- C7 amended witness: an exactly-matching option is accepted by both
selectors. -/
theorem C7_amended_substring_selection_witness :
    select_institution_p1 "A".data ["A".data] = true ∧
    select_institution_p3 "A".data ["A".data] = true := by
  have h := C7_amended_substring_selection "A".data ["A".data]
  exact ⟨h.2.1 ⟨"A".data, by simp, by decide⟩, h.2.2.2 (by simp)⟩

theorem scrape_rows_institution (rows : List RowCells) (name now : String) :
    ∀ r ∈ scrape_rows rows name now, r.Institution = name := by
  intro r hr
  simp only [scrape_rows, List.mem_map] at hr
  obtain ⟨c, _, rfl⟩ := hr
  rfl

/-- C6: re-visiting a scope first removes every record attributed to it
(matched on the `Institution` field) and then appends the freshly
scraped records, so afterwards the collection holds exactly the
newly-fetched records for that scope (none, when selection failed) and
the records of all other scopes are untouched.  Holds for every prior
master list, every row content, and both selection outcomes. -/
theorem C6_revisit_exactly_new_records (master : List FacRecord) (name now : String)
    (rows : List RowCells) (selOk : Bool) :
    ((revisit_one master name (scrape_institution_m selOk rows name now)).filter
        (fun r => r.Institution == name)) =
      (if selOk then scrape_rows rows name now else []) ∧
    ((revisit_one master name (scrape_institution_m selOk rows name now)).filter
        (fun r => r.Institution != name)) =
      master.filter (fun r => r.Institution != name) := by
  have hfilter_ne : ∀ (l : List FacRecord),
      (l.filter (fun r => r.Institution != name)).filter (fun r => r.Institution == name) = [] := by
    intro l
    rw [List.filter_filter]
    have : ∀ r : FacRecord, ((r.Institution == name) && (r.Institution != name)) = false := by
      intro r
      by_cases h : r.Institution = name <;> simp [h]
    simp [this]
  have hfilter_idem : ∀ (l : List FacRecord),
      (l.filter (fun r => r.Institution != name)).filter (fun r => r.Institution != name) =
        l.filter (fun r => r.Institution != name) := by
    intro l
    rw [List.filter_filter]
    simp
  have hdata_eq : ∀ r ∈ scrape_rows rows name now,
      (fun r : FacRecord => r.Institution == name) r = true := by
    intro r hr
    simp [scrape_rows_institution rows name now r hr]
  have hdata_ne : (scrape_rows rows name now).filter (fun r => r.Institution != name) = [] := by
    rw [List.filter_eq_nil_iff]
    intro r hr
    simp [scrape_rows_institution rows name now r hr]
  cases selOk with
  | false =>
    have hm : scrape_institution_m false rows name now = none := rfl
    rw [hm]
    simp only [revisit_one]
    exact ⟨hfilter_ne master, hfilter_idem master⟩
  | true =>
    have hm : scrape_institution_m true rows name now = some (scrape_rows rows name now) := rfl
    rw [hm]
    simp only [revisit_one]
    by_cases hemp : (scrape_rows rows name now).isEmpty
    · have hnil : scrape_rows rows name now = [] := List.isEmpty_iff.mp hemp
      rw [if_pos hemp, hnil]
      exact ⟨by simp [hfilter_ne master], hfilter_idem master⟩
    · rw [if_neg hemp]
      rw [List.filter_append, List.filter_append]
      rw [List.filter_eq_self.mpr hdata_eq, hfilter_ne master, hfilter_idem master, hdata_ne]
      simp

theorem enrichGo_length (B total : Nat) :
    ∀ (items : List (ItemOutcome α)) (i : Nat),
      (enrichGo B total items i).1.length + (enrichGo B total items i).2.1.length
        = items.length := by
  intro items
  induction items with
  | nil => intro i; simp [enrichGo]
  | cons o rest ih =>
    intro i
    cases o <;> simp [enrichGo] <;> have := ih (i + 1) <;> omega

/-- C8 counterexample: Phase 2's cleanup tests only the error registry.
A resumed run over two items that starts at index 1 with an empty
carried-over state (the checkpoint has no data and the error log failed
to load, as after `except: errors = []`) ends with one processed item
out of two and an empty error registry — and Phase 2 deletes the
checkpoint file even though the processed count does not equal the
input length. -/
theorem C8_counterexample_p2_deletes_despite_shortfall :
    phase2_deletes_checkpoint
      (enrichRun 50 [ItemOutcome.ok 7, ItemOutcome.ok 8] 1 [] []).2.1 = true ∧
    (enrichRun 50 [ItemOutcome.ok 7, ItemOutcome.ok 8] 1 [] []).1.length ≠
      ([ItemOutcome.ok 7, ItemOutcome.ok 8] : List (ItemOutcome Nat)).length := by
  refine ⟨by decide, by decide⟩

/-- C8 (amended): Phase 6's cleanup deletes the checkpoint exactly when
the error registry is empty and the processed count equals the full
input length; Phase 2's cleanup tests only the error registry, which
for a *fresh* full run implies the count condition because every item
lands in exactly one of the two registries. -/
theorem C8_amended_cleanup_conditions (B : Nat) (items : List (ItemOutcome α)) :
    (enrichRun B items 0 [] []).1.length + (enrichRun B items 0 [] []).2.1.length
        = items.length ∧
    (phase2_deletes_checkpoint (enrichRun B items 0 [] []).2.1 = true →
      (enrichRun B items 0 [] []).1.length = items.length) ∧
    (phase6_deletes_checkpoint (enrichRun B items 0 [] []).1 (enrichRun B items 0 [] []).2.1
        items.length = true ↔
      (enrichRun B items 0 [] []).2.1 = [] ∧
      (enrichRun B items 0 [] []).1.length = items.length) := by
  have hlen := enrichGo_length B items.length items 0
  have hrun1 : (enrichRun B items 0 [] []).1 = (enrichGo B items.length items 0).1 := by
    simp [enrichRun]
  have hrun2 : (enrichRun B items 0 [] []).2.1 = (enrichGo B items.length items 0).2.1 := by
    simp [enrichRun]
  refine ⟨by rw [hrun1, hrun2]; exact hlen, ?_, ?_⟩
  · intro hdel
    rw [phase2_deletes_checkpoint, List.isEmpty_iff] at hdel
    rw [hrun1]
    rw [hrun2] at hdel
    rw [hdel] at hlen
    simpa using hlen
  · rw [phase6_deletes_checkpoint]
    simp [List.isEmpty_iff]

/-- C8 amended witness: a fresh one-item run with no errors deletes the
checkpoint having processed the full list. -/
theorem C8_amended_cleanup_conditions_witness :
    phase2_deletes_checkpoint (enrichRun 50 [ItemOutcome.ok 7] 0 [] []).2.1 = true ∧
    (enrichRun 50 [ItemOutcome.ok 7] 0 [] []).1.length =
      ([ItemOutcome.ok 7] : List (ItemOutcome Nat)).length := by
  have h := C8_amended_cleanup_conditions 50 ([ItemOutcome.ok 7] : List (ItemOutcome Nat))
  exact ⟨by decide, h.2.1 (by decide)⟩

theorem enrichGo_trace_head (B total : Nat) (items : List (ItemOutcome α)) (i : Nat) :
    (enrichGo B total items i).2.2 = [] ∨
    ∃ t, (enrichGo B total items i).2.2 = Ev.item i :: t := by
  cases items with
  | nil => left; rfl
  | cons o rest =>
    right
    cases o <;> simp [enrichGo]

theorem pausesAfterItems_item (i : Nat) (T : List Ev)
    (h : T = [] ∨ ∃ t, T = Ev.item (i + 1) :: t) :
    pausesAfterItems (Ev.item i :: T) = pausesAfterItems T := by
  rcases h with rfl | ⟨t, rfl⟩ <;> rfl

theorem pauses_enrichGo (B total : Nat) :
    ∀ (items : List (ItemOutcome α)) (i : Nat),
      pausesAfterItems (enrichGo B total items i).2.2 =
        ((List.range items.length).filter
          (fun k => isNoUrl (items.getD k ItemOutcome.failed) = false ∧
            (i + k + 1) % B = 0 ∧ i + k + 1 < total)).map (fun k => i + k + 1) := by
  intro items
  induction items with
  | nil => intro i; simp [enrichGo, pausesAfterItems]
  | cons o rest ih =>
    intro i
    have hshape := enrichGo_trace_head B total rest (i + 1)
    have hP : ∀ k ∈ List.range rest.length,
        ((fun k => decide (isNoUrl ((o :: rest).getD k ItemOutcome.failed) = false ∧
            (i + k + 1) % B = 0 ∧ i + k + 1 < total)) ∘ (fun x => x + 1)) k =
        (fun k => decide (isNoUrl (rest.getD k ItemOutcome.failed) = false ∧
            (i + 1 + k + 1) % B = 0 ∧ i + 1 + k + 1 < total)) k := by
      intro k _
      simp only [Function.comp_apply, List.getD_cons_succ]
      have harith : i + (k + 1) + 1 = i + 1 + k + 1 := by omega
      rw [harith]
    have tail_eq :
        (((List.range rest.length).map (fun x => x + 1)).filter
          (fun k => decide (isNoUrl ((o :: rest).getD k ItemOutcome.failed) = false ∧
            (i + k + 1) % B = 0 ∧ i + k + 1 < total))).map (fun k => i + k + 1) =
        ((List.range rest.length).filter
          (fun k => decide (isNoUrl (rest.getD k ItemOutcome.failed) = false ∧
            (i + 1 + k + 1) % B = 0 ∧ i + 1 + k + 1 < total))).map (fun k => i + 1 + k + 1) := by
      rw [List.filter_map, List.filter_congr hP, List.map_map]
      apply List.map_congr_left
      intro k _
      simp only [Function.comp_apply]
      omega
    cases o with
    | noUrl =>
      have hlhs : (enrichGo B total (ItemOutcome.noUrl :: rest) i).2.2 =
          Ev.item i :: (enrichGo B total rest (i + 1)).2.2 := by
        simp [enrichGo]
      rw [hlhs, pausesAfterItems_item i _ hshape, ih (i + 1)]
      rw [List.length_cons, List.range_succ_eq_map, List.filter_cons]
      rw [if_neg (by simp [isNoUrl])]
      exact tail_eq.symm
    | failed =>
      by_cases hc : (i + 1) % B = 0 ∧ i + 1 < total
      · have hlhs : (enrichGo B total (ItemOutcome.failed :: rest) i).2.2 =
            Ev.item i :: Ev.pause :: (enrichGo B total rest (i + 1)).2.2 := by
          simp [enrichGo, hc]
        rw [hlhs, pausesAfterItems, ih (i + 1)]
        rw [List.length_cons, List.range_succ_eq_map, List.filter_cons]
        rw [if_pos (by simp [isNoUrl]; omega)]
        rw [List.map_cons]
        have h0 : i + 0 + 1 = i + 1 := by omega
        rw [h0]
        exact congrArg (fun l => (i + 1) :: l) tail_eq.symm
      · have hlhs : (enrichGo B total (ItemOutcome.failed :: rest) i).2.2 =
            Ev.item i :: (enrichGo B total rest (i + 1)).2.2 := by
          simp [enrichGo, hc]
        rw [hlhs, pausesAfterItems_item i _ hshape, ih (i + 1)]
        rw [List.length_cons, List.range_succ_eq_map, List.filter_cons]
        rw [if_neg (by simp [isNoUrl]; omega)]
        exact tail_eq.symm
    | ok p =>
      by_cases hc : (i + 1) % B = 0 ∧ i + 1 < total
      · have hlhs : (enrichGo B total (ItemOutcome.ok p :: rest) i).2.2 =
            Ev.item i :: Ev.pause :: (enrichGo B total rest (i + 1)).2.2 := by
          simp [enrichGo, hc]
        rw [hlhs, pausesAfterItems, ih (i + 1)]
        rw [List.length_cons, List.range_succ_eq_map, List.filter_cons]
        rw [if_pos (by simp [isNoUrl]; omega)]
        rw [List.map_cons]
        have h0 : i + 0 + 1 = i + 1 := by omega
        rw [h0]
        exact congrArg (fun l => (i + 1) :: l) tail_eq.symm
      · have hlhs : (enrichGo B total (ItemOutcome.ok p :: rest) i).2.2 =
            Ev.item i :: (enrichGo B total rest (i + 1)).2.2 := by
          simp [enrichGo, hc]
        rw [hlhs, pausesAfterItems_item i _ hshape, ih (i + 1)]
        rw [List.length_cons, List.range_succ_eq_map, List.filter_cons]
        rw [if_neg (by simp [isNoUrl]; omega)]
        exact tail_eq.symm

/-- C9 counterexample: with batch size 2 over 3 items whose second item
has no valid detail URL, the 1-based index 2 is a positive multiple of
the batch size and strictly below the item count, so the claim demands
a pause after it — but the engine pauses nowhere, because the no-URL
item takes the `continue` path, which skips the batch-pause check. -/
theorem C9_counterexample_skipped_item_suppresses_pause :
    pausesAfterItems
      (enrichRun 2 [ItemOutcome.ok 7, ItemOutcome.noUrl, ItemOutcome.ok 8] 0 [] []).2.2 = [] ∧
    (2 % 2 = 0 ∧ 0 < 2 ∧ 2 < 3) := by decide

/-- C9 (amended): in a fresh enrichment run the cool-down pause occurs
exactly after each item whose 1-based index is a multiple of the batch
size and strictly below the item count *and* that was not skipped for
lacking a detail URL; in particular a run over 120 url-carrying items
with batch size 50 pauses exactly after items 50 and 100, never after
item 120. -/
theorem C9_amended_pause_positions (B : Nat) (items : List (ItemOutcome α)) :
    pausesAfterItems (enrichRun B items 0 [] []).2.2 =
      ((List.range items.length).filter
        (fun k => isNoUrl (items.getD k ItemOutcome.failed) = false ∧
          (k + 1) % B = 0 ∧ k + 1 < items.length)).map (fun k => k + 1) ∧
    pausesAfterItems (enrichRun 50 (List.replicate 120 (ItemOutcome.ok 0)) 0 [] []).2.2 =
      [50, 100] := by
  constructor
  · have h := pauses_enrichGo B items.length items 0
    have htr : (enrichRun B items 0 [] []).2.2 = (enrichGo B items.length items 0).2.2 := by
      simp [enrichRun]
    rw [htr, h]
    simp
  · decide

theorem collapseWS_head : ∀ (cs : List Char) (c : Char),
    ∃ d t, collapseWS (c :: cs) = d :: t ∧ pyIsSpace d = pyIsSpace c := by
  intro cs
  induction cs with
  | nil =>
    intro c
    by_cases h : pyIsSpace c = true
    · exact ⟨' ', [], by simp [collapseWS, h], by rw [h]; decide⟩
    · exact ⟨c, [], by simp [collapseWS, h], rfl⟩
  | cons c2 rest ih =>
    intro c
    by_cases h : (pyIsSpace c && pyIsSpace c2) = true
    · obtain ⟨d, t, hdt, hsp⟩ := ih c2
      refine ⟨d, t, ?_, ?_⟩
      · rw [collapseWS, if_pos h]
        exact hdt
      · simp only [Bool.and_eq_true] at h
        rw [hsp, h.1, h.2]
    · by_cases hc : pyIsSpace c = true
      · exact ⟨' ', collapseWS (c2 :: rest), by rw [collapseWS, if_neg h, if_pos hc],
          by rw [hc]; decide⟩
      · exact ⟨c, collapseWS (c2 :: rest),
          by rw [collapseWS, if_neg h, if_neg hc], rfl⟩

theorem collapseWS_spaces_blank : ∀ (l : List Char),
    ∀ c ∈ collapseWS l, pyIsSpace c = true → c = ' ' := by
  intro l
  induction l using collapseWS.induct with
  | case1 => intro c hc; simp [collapseWS] at hc
  | case2 c0 h0 =>
    intro c hc _
    simp [collapseWS, h0] at hc
    exact hc
  | case3 c0 h0 =>
    intro c hc hsp
    simp [collapseWS, h0] at hc
    subst hc
    exact absurd hsp (by simp [h0])
  | case4 c1 c2 rest h ih =>
    intro c hc hsp
    rw [collapseWS, if_pos h] at hc
    exact ih c hc hsp
  | case5 c1 c2 rest h ih =>
    intro c hc hsp
    rw [collapseWS, if_neg h] at hc
    rcases List.mem_cons.mp hc with rfl | hmem
    · by_cases h1 : pyIsSpace c1 = true
      · simp [h1]
      · exfalso
        rw [if_neg h1] at hsp
        exact h1 hsp
    · exact ih c hmem hsp

theorem collapseWS_chain : ∀ (l : List Char),
    List.Chain' (fun a b => ¬(pyIsSpace a = true ∧ pyIsSpace b = true)) (collapseWS l) := by
  intro l
  induction l using collapseWS.induct with
  | case1 => simp [collapseWS]
  | case2 c0 h0 => simp [collapseWS, h0]
  | case3 c0 h0 => simp [collapseWS, h0]
  | case4 c1 c2 rest h ih =>
    rw [collapseWS, if_pos h]
    exact ih
  | case5 c1 c2 rest h ih =>
    rw [collapseWS, if_neg h]
    obtain ⟨d, t, hdt, hsp⟩ := collapseWS_head rest c2
    rw [hdt]
    rw [hdt] at ih
    rw [List.chain'_cons]
    refine ⟨?_, ih⟩
    rintro ⟨hA, hB⟩
    rw [hsp] at hB
    by_cases h1 : pyIsSpace c1 = true
    · rw [if_pos h1] at hA
      simp only [Bool.and_eq_true] at h
      exact h ⟨h1, hB⟩
    · rw [if_neg h1] at hA
      exact h1 hA

theorem collapseWS_getLast : ∀ (l : List Char),
    (∀ c, l.getLast? = some c → pyIsSpace c = false) →
    (∀ c, (collapseWS l).getLast? = some c → pyIsSpace c = false) := by
  intro l
  induction l using collapseWS.induct with
  | case1 => intro _ c hc; simp [collapseWS] at hc
  | case2 c0 h0 =>
    intro hin c hc
    have := hin c0 rfl
    rw [h0] at this
    cases this
  | case3 c0 h0 =>
    intro hin c hc
    simp [collapseWS, h0] at hc
    subst hc
    exact hin _ rfl
  | case4 c1 c2 rest h ih =>
    intro hin c hc
    rw [collapseWS, if_pos h] at hc
    refine ih ?_ c hc
    intro c3 hc3
    refine hin c3 ?_
    rw [List.getLast?_cons_cons]
    exact hc3
  | case5 c1 c2 rest h ih =>
    intro hin c hc
    rw [collapseWS, if_neg h] at hc
    obtain ⟨d, t, hdt, _⟩ := collapseWS_head rest c2
    rw [hdt] at hc
    rw [List.getLast?_cons_cons] at hc
    rw [← hdt] at hc
    refine ih ?_ c hc
    intro c3 hc3
    refine hin c3 ?_
    rw [List.getLast?_cons_cons]
    exact hc3

theorem collapseWS_fixed : ∀ (l : List Char),
    (∀ c ∈ l, pyIsSpace c = true → c = ' ') →
    List.Chain' (fun a b => ¬(pyIsSpace a = true ∧ pyIsSpace b = true)) l →
    collapseWS l = l := by
  intro l
  induction l using collapseWS.induct with
  | case1 => intro _ _; rfl
  | case2 c0 h0 =>
    intro hbl _
    have := hbl c0 (by simp) h0
    subst this
    simp [collapseWS, h0]
  | case3 c0 h0 =>
    intro _ _
    simp [collapseWS, h0]
  | case4 c1 c2 rest h ih =>
    intro hbl hch
    exfalso
    rw [List.chain'_cons] at hch
    simp only [Bool.and_eq_true] at h
    exact hch.1 ⟨h.1, h.2⟩
  | case5 c1 c2 rest h ih =>
    intro hbl hch
    rw [collapseWS, if_neg h]
    rw [List.chain'_cons] at hch
    have htail : collapseWS (c2 :: rest) = c2 :: rest := by
      refine ih ?_ hch.2
      intro c hc hsp
      exact hbl c (List.mem_cons_of_mem c1 hc) hsp
    rw [htail]
    by_cases h1 : pyIsSpace c1 = true
    · have := hbl c1 (by simp) h1
      subst this
      rw [if_pos h1]
    · rw [if_neg h1]

theorem dropWhile_head_not_space (l : List Char) :
    ∀ c, (l.dropWhile pyIsSpace).head? = some c → pyIsSpace c = false := by
  induction l with
  | nil => intro c hc; simp at hc
  | cons x xs ih =>
    intro c hc
    rw [List.dropWhile_cons] at hc
    by_cases hx : pyIsSpace x = true
    · rw [if_pos hx] at hc
      exact ih c hc
    · rw [if_neg hx] at hc
      simp at hc
      subst hc
      simp at hx
      exact hx

theorem rstrip_front_self (l : List Char) : rstrip l <+: l := by
  rw [rstrip]
  have hsuf : l.reverse.dropWhile pyIsSpace <:+ l.reverse := List.dropWhile_suffix pyIsSpace
  have := @List.reverse_suffix Char ((l.reverse.dropWhile pyIsSpace).reverse) l
  rw [List.reverse_reverse] at this
  exact this.mp hsuf

theorem pyStrip_head (l : List Char) :
    ∀ c, (pyStrip l).head? = some c → pyIsSpace c = false := by
  intro c hc
  rw [pyStrip] at hc
  obtain ⟨t, ht⟩ := rstrip_front_self (lstrip l)
  have hl : (lstrip l).head? = some c := by
    rw [← ht, List.head?_append, hc]
    rfl
  exact dropWhile_head_not_space l c hl

theorem pyStrip_getLast (l : List Char) :
    ∀ c, (pyStrip l).getLast? = some c → pyIsSpace c = false := by
  intro c hc
  rw [pyStrip, rstrip, List.getLast?_reverse] at hc
  exact dropWhile_head_not_space (lstrip l).reverse c hc

theorem dropWhile_fixed_of_head (l : List Char)
    (h : ∀ c, l.head? = some c → pyIsSpace c = false) :
    l.dropWhile pyIsSpace = l := by
  cases l with
  | nil => rfl
  | cons x xs =>
    rw [List.dropWhile_cons, if_neg]
    rw [h x rfl]
    simp

theorem pyStrip_fixed (l : List Char)
    (hh : ∀ c, l.head? = some c → pyIsSpace c = false)
    (hl : ∀ c, l.getLast? = some c → pyIsSpace c = false) :
    pyStrip l = l := by
  rw [pyStrip, lstrip, dropWhile_fixed_of_head l hh, rstrip]
  rw [dropWhile_fixed_of_head l.reverse]
  · exact List.reverse_reverse l
  · intro c hc
    rw [List.head?_reverse] at hc
    exact hl c hc

theorem mapNb_fixed (x : List Char)
    (h : ∀ c ∈ x, pyIsSpace c = true → c = ' ') :
    x.map (fun c => if c = nbsp then ' ' else c) = x := by
  have : ∀ c ∈ x, (fun c => if c = nbsp then ' ' else c) c = c := by
    intro c hc
    by_cases hn : c = nbsp
    · exfalso
      have hsp : pyIsSpace c = true := by rw [hn]; decide
      have := h c hc hsp
      rw [hn] at this
      exact absurd this (by decide)
    · simp [hn]
  calc x.map (fun c => if c = nbsp then ' ' else c) = x.map id := List.map_congr_left this
    _ = x := List.map_id x

/-- C10: `clean_text` is idempotent — a second application changes
nothing, because the first leaves a string with no leading or trailing
whitespace, no whitespace character other than a single blank between
words, and no non-breaking space — and the falsy input (the empty
string) maps to the empty string. -/
theorem C10_clean_text_idempotent :
    (∀ l : List Char, clean_text (clean_text l) = clean_text l) ∧
    clean_text [] = [] := by
  refine ⟨?_, rfl⟩
  intro l
  by_cases hl : l = []
  · subst hl; rfl
  · have hsp := collapseWS_spaces_blank (pyStrip l)
    have hchain := collapseWS_chain (pyStrip l)
    have hmap := mapNb_fixed (collapseWS (pyStrip l)) hsp
    have hct : clean_text l = collapseWS (pyStrip l) := by
      rw [clean_text, if_neg hl]
      exact hmap
    rw [hct]
    by_cases hr : collapseWS (pyStrip l) = []
    · rw [hr]; rfl
    · rw [clean_text, if_neg hr]
      have hhead : ∀ c, (collapseWS (pyStrip l)).head? = some c → pyIsSpace c = false := by
        intro c hc
        cases hps : pyStrip l with
        | nil => rw [hps] at hr; exact absurd rfl hr
        | cons c0 cs =>
          obtain ⟨d, t, hdt, hspd⟩ := collapseWS_head cs c0
          rw [hps, hdt] at hc
          simp at hc
          subst hc
          rw [hspd]
          refine pyStrip_head l c0 ?_
          rw [hps]
          rfl
      have hlast : ∀ c, (collapseWS (pyStrip l)).getLast? = some c → pyIsSpace c = false :=
        collapseWS_getLast (pyStrip l) (pyStrip_getLast l)
      rw [pyStrip_fixed _ hhead hlast]
      rw [collapseWS_fixed _ hsp hchain]
      exact mapNb_fixed _ hsp

end OCIP
